import Mathlib

/-!
Verification development for the `solana-idl-codegen` repository.

The definitions below are a shallow embedding of the Rust sources:
`src/idl.rs` (the schema model), `src/override.rs` (the override
resolver) and `src/codegen.rs` (the code generator).  Machine integers
(`u8`, `u64`, ...) are modelled as `Nat` with explicit bounds where
overflow matters; Rust `Option`/`Result` map to Lean `Option`/`Except`;
Rust `HashMap<String, _>` maps to an association list (iteration order
in Rust is unspecified, and no theorem below depends on the order);
the file system seen by override discovery is modelled as a predicate
`String → Bool` on paths.
-/

set_option maxRecDepth 10000

namespace IdlCodegen

/-! ## Schema model (`src/idl.rs`) -/

/-- Embeds `Metadata` from `src/idl.rs`. -/
structure Metadata where
  name : Option String
  version : Option String
  spec : Option String
  description : Option String
  address : Option String
deriving DecidableEq

/-- Embeds `DefinedTypeOrString` from `src/idl.rs`: a defined-type
reference is either a plain string or a nested `{ name }` object. -/
inductive DefinedRef where
  | byString (s : String)
  | nested (name : String)
deriving DecidableEq

/-- Embeds `DefinedTypeOrString::name`. -/
def DefinedRef.name : DefinedRef → String
  | .byString s => s
  | .nested n => n

/-- Embeds `IdlType` from `src/idl.rs` (`Simple`, `Vec`, `Option`,
`Array`, `Defined`). -/
inductive IdlType where
  | simple (s : String)
  | vecOf (inner : IdlType)
  | optionOf (inner : IdlType)
  | arrayOf (inner : IdlType) (size : Nat)
  | defined (d : DefinedRef)
deriving DecidableEq

/-- Embeds `Field` from `src/idl.rs`. -/
structure Field where
  name : String
  ty : IdlType
  docs : Option (List String)
deriving DecidableEq

/-- Embeds `StructFields` from `src/idl.rs`. -/
inductive StructFields where
  | named (fields : List Field)
  | tuple (types : List IdlType)
deriving DecidableEq

/-- Embeds `EnumFields` from `src/idl.rs`. -/
inductive EnumFields where
  | named (fields : List Field)
  | tuple (types : List IdlType)
deriving DecidableEq

/-- Embeds `EnumVariant` from `src/idl.rs`. -/
structure EnumVariant where
  name : String
  fields : Option EnumFields
deriving DecidableEq

/-- Embeds `TypeDefType` from `src/idl.rs`. -/
inductive TypeDefType where
  | struct (fields : StructFields)
  | enum (variants : List EnumVariant)
deriving DecidableEq

/-- Embeds `Repr` from `src/idl.rs`. -/
structure ReprAttr where
  kind : String
  packed : Option Bool
deriving DecidableEq

/-- Embeds `TypeDef` from `src/idl.rs`. -/
structure TypeDef where
  name : String
  docs : Option (List String)
  ty : TypeDefType
  serialization : Option String
  repr : Option ReprAttr
deriving DecidableEq

/-- Embeds `Seed` from `src/idl.rs`. -/
inductive Seed where
  | const (value : List Nat)
  | arg (path : String)
  | account (path : String)
deriving DecidableEq

/-- Embeds `Program` from `src/idl.rs` (the PDA program reference). -/
inductive ProgramRef where
  | const (value : List Nat)
  | account (path : String)
deriving DecidableEq

/-- Embeds `Pda` from `src/idl.rs`. -/
structure Pda where
  seeds : List Seed
  program : Option ProgramRef
deriving DecidableEq

/-- Embeds `AccountArg` from `src/idl.rs` (an account slot of an
instruction, with `signer`/`writable` already normalized from the
`isSigner`/`isMut` aliases by serde). -/
structure AccountArg where
  name : String
  docs : Option (List String)
  signer : Bool
  writable : Bool
  pda : Option Pda
  address : Option String
  optional : Option Bool
deriving DecidableEq

/-- Embeds `Arg` from `src/idl.rs`. -/
structure Arg where
  name : String
  ty : IdlType
deriving DecidableEq

/-- Embeds `Instruction` from `src/idl.rs`; the discriminator is a
byte list (`Vec<u8>`). -/
structure Instruction where
  name : String
  docs : Option (List String)
  discriminator : Option (List Nat)
  accounts : List AccountArg
  args : List Arg
deriving DecidableEq

/-- Embeds `Account` from `src/idl.rs`. -/
structure Account where
  name : String
  discriminator : Option (List Nat)
  docs : Option (List String)
  ty : Option TypeDefType
deriving DecidableEq

/-- Embeds `Error` from `src/idl.rs`. -/
structure Error where
  code : Nat
  name : String
  msg : Option String
deriving DecidableEq

/-- Embeds `EventField` from `src/idl.rs`. -/
structure EventField where
  name : String
  ty : IdlType
  index : Bool
deriving DecidableEq

/-- Embeds `Event` from `src/idl.rs`. -/
structure Event where
  name : String
  discriminator : Option (List Nat)
  fields : Option (List EventField)
deriving DecidableEq

/-- Embeds `Constant` from `src/idl.rs`. -/
structure Constant where
  name : String
  ty : IdlType
  value : String
deriving DecidableEq

/-- Embeds `Idl` from `src/idl.rs`, the root schema entity. -/
structure Idl where
  address : Option String
  version : Option String
  name : Option String
  metadata : Option Metadata
  instructions : List Instruction
  accounts : Option (List Account)
  types : Option (List TypeDef)
  errors : Option (List Error)
  events : Option (List Event)
  constants : Option (List Constant)
deriving DecidableEq

/-- Embeds `Idl::get_name` (`src/idl.rs` lines 29-40): the metadata
sub-object is consulted first, the top-level `name` field is the
fallback, and `"unknown"` is the sentinel default. -/
def Idl.get_name (idl : Idl) : String :=
  match idl.metadata with
  | some m =>
    match m.name with
    | some n => n
    | none => idl.name.getD "unknown"
  | none => idl.name.getD "unknown"

/-- Embeds `Idl::get_version` (`src/idl.rs` lines 42-53): metadata
first, top-level `version` as fallback, sentinel `"0.0.0"`. -/
def Idl.get_version (idl : Idl) : String :=
  match idl.metadata with
  | some m =>
    match m.version with
    | some v => v
    | none => idl.version.getD "0.0.0"
  | none => idl.version.getD "0.0.0"

/-- Embeds `Idl::get_address` (`src/idl.rs` lines 55-67): the
top-level `address` field is consulted first, `metadata.address`
is the fallback, and there is no sentinel (the result is optional). -/
def Idl.get_address (idl : Idl) : Option String :=
  match idl.address with
  | some a => some a
  | none =>
    match idl.metadata with
    | some m => m.address
    | none => none

/-! ### Claim C1 -/

/-- A schema carrying both a top-level name/version and a metadata
name/version, used to exhibit the actual resolution order. -/
def idlBothNames : Idl :=
  { address := none
    version := some "9.9.9"
    name := some "top_name"
    metadata := some
      { name := some "meta_name"
        version := some "1.2.3"
        spec := none
        description := none
        address := none }
    instructions := []
    accounts := none
    types := none
    errors := none
    events := none
    constants := none }

/-- Claim C1 is false as stated: on a schema where both the top-level
and the metadata name (and version) are present, the accessors return
the METADATA value, not the top-level value, so the top-level value
does not win and the order for name/version is not the one used for
the address. -/
theorem c1_counterexample :
    idlBothNames.name = some "top_name" ∧
    idlBothNames.get_name = "meta_name" ∧
    idlBothNames.version = some "9.9.9" ∧
    idlBothNames.get_version = "1.2.3" ∧
    "meta_name" ≠ "top_name" ∧ "1.2.3" ≠ "9.9.9" := by
  refine ⟨rfl, rfl, rfl, rfl, ?_, ?_⟩ <;> decide

/-- Claim C1 (amended): after normalization each accessor follows a
fixed resolution order, but the orders differ: for `name` and
`version` the metadata sub-object wins and the explicit top-level
value is the fallback (sentinels `"unknown"` / `"0.0.0"`), whereas
for `address` the explicit top-level value wins and the metadata
sub-object is the fallback (no sentinel). -/
theorem c1_resolution_order (idl : Idl) :
    (∀ m n, idl.metadata = some m → m.name = some n → idl.get_name = n) ∧
    ((idl.metadata.bind Metadata.name) = none →
      idl.get_name = idl.name.getD "unknown") ∧
    (∀ m v, idl.metadata = some m → m.version = some v → idl.get_version = v) ∧
    ((idl.metadata.bind Metadata.version) = none →
      idl.get_version = idl.version.getD "0.0.0") ∧
    (∀ a, idl.address = some a → idl.get_address = some a) ∧
    (idl.address = none →
      idl.get_address = idl.metadata.bind Metadata.address) := by
  refine ⟨?_, ?_, ?_, ?_, ?_, ?_⟩
  · intro m n hm hn
    simp [Idl.get_name, hm, hn]
  · intro h
    cases hm : idl.metadata with
    | none => simp [Idl.get_name, hm]
    | some m =>
      rw [hm] at h
      cases hn : m.name with
      | none => simp [Idl.get_name, hm, hn]
      | some n => simp [Option.some_bind, hn] at h
  · intro m v hm hv
    simp [Idl.get_version, hm, hv]
  · intro h
    cases hm : idl.metadata with
    | none => simp [Idl.get_version, hm]
    | some m =>
      rw [hm] at h
      cases hv : m.version with
      | none => simp [Idl.get_version, hm, hv]
      | some v => simp [Option.some_bind, hv] at h
  · intro a ha
    simp [Idl.get_address, ha]
  · intro h
    cases hm : idl.metadata with
    | none => simp [Idl.get_address, h, hm]
    | some m => simp [Idl.get_address, h, hm]

/-- Witness for `c1_resolution_order` at a concrete schema. -/
theorem c1_resolution_order_witness :
    idlBothNames.get_name = "meta_name" ∧
    idlBothNames.get_address = none := by
  constructor
  · exact (c1_resolution_order idlBothNames).1
      { name := some "meta_name", version := some "1.2.3", spec := none,
        description := none, address := none } "meta_name" rfl rfl
  · have h := (c1_resolution_order idlBothNames).2.2.2.2.2 rfl
    simpa using h

/-! ## Instruction discriminator derivation (`src/codegen.rs`,
`generate_instructions`) -/

/-- Little-endian 8-byte encoding of a `u64`, embedding
`(idx as u64).to_le_bytes().to_vec()`. -/
def u64ToLeBytes (n : Nat) : List Nat :=
  (List.range 8).map (fun i => n / 256 ^ i % 256)

/-- Embeds the discriminator selection of `generate_instructions`
(`src/codegen.rs` lines 731-736): an explicit discriminator is used
verbatim, otherwise the zero-based index is encoded little-endian. -/
def instructionDiscriminatorBytes (idx : Nat) (ix : Instruction) : List Nat :=
  match ix.discriminator with
  | some disc => disc
  | none => u64ToLeBytes idx

/-- Embeds the `instructions.iter().enumerate()` walk of
`generate_instructions`: one discriminator per instruction, paired
with its zero-based position. -/
def deriveDiscriminatorsFrom (idx : Nat) : List Instruction → List (List Nat)
  | [] => []
  | ix :: rest =>
    instructionDiscriminatorBytes idx ix :: deriveDiscriminatorsFrom (idx + 1) rest

/-- The discriminators generated for a declaration list, in order. -/
def derivedInstructionDiscriminators (ixs : List Instruction) : List (List Nat) :=
  deriveDiscriminatorsFrom 0 ixs

theorem deriveDiscriminatorsFrom_get? :
    ∀ (l : List Instruction) (n i : Nat),
      (deriveDiscriminatorsFrom n l).get? i
        = (l.get? i).map (instructionDiscriminatorBytes (n + i)) := by
  intro l
  induction l with
  | nil => intro n i; simp [deriveDiscriminatorsFrom]
  | cons ix rest ih =>
    intro n i
    cases i with
    | zero => simp [deriveDiscriminatorsFrom]
    | succ j =>
      simp only [deriveDiscriminatorsFrom, List.get?]
      rw [ih (n + 1) j]
      have : n + 1 + j = n + (j + 1) := by omega
      rw [this]

/-- Claim C3: an instruction with no explicit discriminator derives
its discriminator from its zero-based position in the declaration
list, encoded as a fixed-width little-endian 8-byte integer; the
derivation depends only on the position and the instruction itself
(never on other instructions), and positions 0 and 1 derive
`[0,0,0,0,0,0,0,0]` and `[1,0,0,0,0,0,0,0]`. -/
theorem c3_positional_fallback_discriminator :
    (∀ (ixs : List Instruction) (i : Nat) (ix : Instruction),
        ixs.get? i = some ix → ix.discriminator = none →
        (derivedInstructionDiscriminators ixs).get? i = some (u64ToLeBytes i)) ∧
    (∀ (ixs ixs' : List Instruction) (i : Nat),
        ixs.get? i = ixs'.get? i →
        (derivedInstructionDiscriminators ixs).get? i
          = (derivedInstructionDiscriminators ixs').get? i) ∧
    (∀ (ix0 ix1 : Instruction) (rest : List Instruction),
        ix0.discriminator = none → ix1.discriminator = none →
        (derivedInstructionDiscriminators (ix0 :: ix1 :: rest)).get? 0
            = some [0, 0, 0, 0, 0, 0, 0, 0] ∧
          (derivedInstructionDiscriminators (ix0 :: ix1 :: rest)).get? 1
            = some [1, 0, 0, 0, 0, 0, 0, 0]) := by
  have key : ∀ (ixs : List Instruction) (i : Nat),
      (derivedInstructionDiscriminators ixs).get? i
        = (ixs.get? i).map (instructionDiscriminatorBytes i) := by
    intro ixs i
    have h := deriveDiscriminatorsFrom_get? ixs 0 i
    simpa [derivedInstructionDiscriminators] using h
  have le0 : u64ToLeBytes 0 = [0, 0, 0, 0, 0, 0, 0, 0] := by decide
  have le1 : u64ToLeBytes 1 = [1, 0, 0, 0, 0, 0, 0, 0] := by decide
  refine ⟨?_, ?_, ?_⟩
  · intro ixs i ix hget hnone
    rw [key, hget]
    simp [instructionDiscriminatorBytes, hnone]
  · intro ixs ixs' i h
    rw [key, key, h]
  · intro ix0 ix1 rest h0 h1
    constructor
    · rw [key]
      simp [instructionDiscriminatorBytes, h0, le0]
    · rw [key]
      simp [instructionDiscriminatorBytes, h1, le1]

/-- A two-instruction declaration list with no explicit
discriminators, used as a concrete input. -/
def ixNoDisc (nm : String) : Instruction :=
  { name := nm, docs := none, discriminator := none, accounts := [], args := [] }

/-- Witness for `c3_positional_fallback_discriminator` on a concrete
two-instruction list. -/
theorem c3_positional_fallback_discriminator_witness :
    (derivedInstructionDiscriminators [ixNoDisc "initialize", ixNoDisc "trade"]).get? 0
        = some [0, 0, 0, 0, 0, 0, 0, 0] ∧
      (derivedInstructionDiscriminators [ixNoDisc "initialize", ixNoDisc "trade"]).get? 1
        = some [1, 0, 0, 0, 0, 0, 0, 0] :=
  c3_positional_fallback_discriminator.2.2 (ixNoDisc "initialize") (ixNoDisc "trade") [] rfl rfl

/-! ## Override discovery (`src/override.rs`, `discover_override_file`) -/

/-- Embeds `OverrideDiscovery` from `src/override.rs`. -/
inductive OverrideDiscovery where
  | Found (path : String)
  | NotFound
  | Conflict (files : List String) (sources : List String)
deriving DecidableEq

/-- The per-schema conventional override location
`./overrides/\x7bidl_name\x7d.json`. -/
def conventionPath (idl_name : String) : String :=
  "./overrides/" ++ idl_name ++ ".json"

/-- The global fallback override location `./idl-overrides.json`. -/
def globalFallbackPath : String := "./idl-overrides.json"

/-- Embeds `discover_override_file` (`src/override.rs` lines 147-188).
The file system is abstracted as the predicate `fsExists`; the unused
`_idl_path` argument of the Rust function is dropped. -/
def discover_override_file (idl_name : String) (explicit_override : Option String)
    (fsExists : String → Bool) : OverrideDiscovery :=
  match explicit_override with
  | some explicit_path =>
    if fsExists explicit_path then .Found explicit_path else .NotFound
  | none =>
    let convention_path := conventionPath idl_name
    let found1 : List String :=
      if fsExists convention_path then [convention_path] else []
    let sources1 : List String :=
      if fsExists convention_path then ["convention-based discovery"] else []
    let addGlobal : Bool :=
      fsExists globalFallbackPath && !(found1.contains globalFallbackPath)
    let found_files := if addGlobal then found1 ++ [globalFallbackPath] else found1
    let sources := if addGlobal then sources1 ++ ["global fallback"] else sources1
    match found_files with
    | [] => .NotFound
    | [f] => .Found f
    | f1 :: f2 :: rest => .Conflict (f1 :: f2 :: rest) sources

theorem conventionPath_ne_globalFallbackPath (n : String) :
    conventionPath n ≠ globalFallbackPath := by
  intro h
  have h' := congrArg String.data h
  rw [conventionPath, globalFallbackPath, String.data_append, String.data_append] at h'
  have hc : "./overrides/".data
      = ['.', '/', 'o', 'v', 'e', 'r', 'r', 'i', 'd', 'e', 's', '/'] := rfl
  have hg : "./idl-overrides.json".data
      = ['.', '/', 'i', 'd', 'l', '-', 'o', 'v', 'e', 'r', 'r', 'i', 'd', 'e',
         's', '.', 'j', 's', 'o', 'n'] := rfl
  rw [hc, hg] at h'
  simp at h'

/-! ### Claim C10 -/

/-- Claim C10: when an explicit override path is supplied but no file
exists there, discovery returns `NotFound` immediately; the
conventional and global fallback locations are never consulted (the
result does not depend on `fsExists` at those paths). -/
theorem c10_explicit_missing_returns_notfound
    (idl_name p : String) (fsExists : String → Bool)
    (h : fsExists p = false) :
    discover_override_file idl_name (some p) fsExists = .NotFound := by
  simp [discover_override_file, h]

/-- A file system in which the conventional file for schema `prog`
and the global fallback file both exist, but nothing else does. -/
def fsConventionAndGlobal : String → Bool :=
  fun s => s == conventionPath "prog" || s == globalFallbackPath

/-- Witness for `c10_explicit_missing_returns_notfound`: the explicit
path `explicit.json` does not exist, yet both convention-based
candidates do, and discovery still answers `NotFound`. -/
theorem c10_explicit_missing_returns_notfound_witness :
    fsConventionAndGlobal "explicit.json" = false ∧
    fsConventionAndGlobal (conventionPath "prog") = true ∧
    fsConventionAndGlobal globalFallbackPath = true ∧
    discover_override_file "prog" (some "explicit.json") fsConventionAndGlobal
      = .NotFound := by
  refine ⟨by decide, by decide, by decide, ?_⟩
  exact c10_explicit_missing_returns_notfound "prog" "explicit.json"
    fsConventionAndGlobal (by decide)

/-! ### Claim C4 -/

/-- Claim C4 is false as stated: with an explicit path supplied whose
file does not exist, discovery returns `NotFound`, not `Found` at the
explicit path, even though both other candidate files exist. -/
theorem c4_counterexample :
    fsConventionAndGlobal "explicit.json" = false ∧
    fsConventionAndGlobal (conventionPath "prog") = true ∧
    fsConventionAndGlobal globalFallbackPath = true ∧
    discover_override_file "prog" (some "explicit.json") fsConventionAndGlobal
      = .NotFound ∧
    OverrideDiscovery.NotFound ≠ .Found "explicit.json" := by
  decide

/-- Claim C4 (amended): discovery returns `Conflict`, listing both
candidate files and their discovery source labels, whenever the
conventional file and the global fallback file both exist and no
explicit path was given; and whenever an explicit path is given AND a
file exists at it, discovery returns `Found` at exactly that path,
regardless of the other candidates. -/
theorem c4_conflict_and_explicit_precedence
    (idl_name p : String) (fsExists : String → Bool) :
    (fsExists (conventionPath idl_name) = true →
      fsExists globalFallbackPath = true →
      discover_override_file idl_name none fsExists =
        .Conflict [conventionPath idl_name, globalFallbackPath]
          ["convention-based discovery", "global fallback"]) ∧
    (fsExists p = true →
      discover_override_file idl_name (some p) fsExists = .Found p) := by
  constructor
  · intro hconv hglob
    have hne : globalFallbackPath ≠ conventionPath idl_name := by
      intro h
      exact conventionPath_ne_globalFallbackPath idl_name h.symm
    simp [discover_override_file, hconv, hglob, List.contains, hne]
  · intro h
    simp [discover_override_file, h]

/-- Witness for `c4_conflict_and_explicit_precedence` on the concrete
file system `fsConventionAndGlobal`. -/
theorem c4_conflict_and_explicit_precedence_witness :
    discover_override_file "prog" none fsConventionAndGlobal
        = .Conflict [conventionPath "prog", globalFallbackPath]
          ["convention-based discovery", "global fallback"] ∧
      discover_override_file "prog" (some (conventionPath "prog")) fsConventionAndGlobal
        = .Found (conventionPath "prog") :=
  ⟨(c4_conflict_and_explicit_precedence "prog" (conventionPath "prog")
      fsConventionAndGlobal).1 (by decide) (by decide),
    (c4_conflict_and_explicit_precedence "prog" (conventionPath "prog")
      fsConventionAndGlobal).2 (by decide)⟩

/-! ## Override documents (`src/override.rs`) -/

/-- Embeds `DiscriminatorOverride` from `src/override.rs`.  The Rust
field has type `[u8; 8]`; serde rejects any other length, so every
value reachable from a parsed override file has exactly 8 bytes. -/
structure DiscriminatorOverride where
  discriminator : List Nat
deriving DecidableEq

/-- Embeds `OverrideFile` from `src/override.rs`.  The three Rust
`HashMap<String, DiscriminatorOverride>` maps are modelled as
association lists; map iteration order is unspecified in Rust and no
theorem below depends on it. -/
structure OverrideFile where
  program_address : Option String
  accounts : List (String × DiscriminatorOverride)
  events : List (String × DiscriminatorOverride)
  instructions : List (String × DiscriminatorOverride)
deriving DecidableEq

/-- Embeds `ValidationError` from `src/override.rs` (the payloads
carry the same data as the Rust variants). -/
inductive ValidationError where
  | InvalidProgramAddress (address : String)
  | SystemDefaultPubkey (address : String)
  | InvalidDiscriminatorLength (entity_type entity_name : String)
  | AllZeroDiscriminator (entity_type entity_name : String)
  | EmptyOverrideFile
  | UnknownEntity (entity_type entity_name available : String)
deriving DecidableEq

/-! ### Base58 decoding (the `bs58` crate as used by
`validate_override_file`) -/

/-- The base58 alphabet used by the `bs58` crate. -/
def b58Alphabet : List Char :=
  "123456789ABCDEFGHJKLMNPQRSTUVWXYZabcdefghijkmnopqrstuvwxyz".toList

/-- Value of one base58 digit, `none` for a character outside the
alphabet. -/
def b58DigitValue (c : Char) : Option Nat :=
  b58Alphabet.findIdx? (fun a => a == c)

/-- Big-number accumulation of a base58 string. -/
def bs58DecodeNat : List Char → Nat → Option Nat
  | [], acc => some acc
  | c :: rest, acc =>
    match b58DigitValue c with
    | some v => bs58DecodeNat rest (acc * 58 + v)
    | none => none

/-- Big-endian base-256 digits of `n` (empty for `0`), with an
explicit fuel argument so that evaluation is structural; `fuel = n`
always suffices because the argument shrinks by a factor of 256. -/
def natToBytesBEAux : Nat → Nat → List Nat
  | 0, _ => []
  | fuel + 1, n => if n = 0 then [] else natToBytesBEAux fuel (n / 256) ++ [n % 256]

/-- Big-endian base-256 digits of `n`. -/
def natToBytesBE (n : Nat) : List Nat := natToBytesBEAux n n

/-- Number of leading `'1'` characters (each stands for one leading
zero byte in base58). -/
def countLeadingOnes : List Char → Nat
  | '1' :: rest => countLeadingOnes rest + 1
  | _ => 0

/-- Embeds `bs58::decode(address).into_vec()`: `none` on a character
outside the alphabet, otherwise the decoded byte string (leading
`'1'`s become leading zero bytes). -/
def bs58Decode (s : String) : Option (List Nat) :=
  match bs58DecodeNat s.toList 0 with
  | some n => some (List.replicate (countLeadingOnes s.toList) 0 ++ natToBytesBE n)
  | none => none

/-! ### Validation (`src/override.rs`, `validate_override_file`) -/

/-- The all-zero 8-byte discriminator `[0u8; 8]`. -/
def zeroDisc : List Nat := List.replicate 8 0

/-- Embeds `validate_discriminators` (`src/override.rs` lines
215-228): report the first all-zero discriminator in the map. -/
def validate_discriminators (entity_type : String) :
    List (String × DiscriminatorOverride) → Except ValidationError Unit
  | [] => .ok ()
  | (name, dov) :: rest =>
    if dov.discriminator = zeroDisc then
      .error (.AllZeroDiscriminator entity_type name)
    else validate_discriminators entity_type rest

/-- The inner loop of `validate_entity_names`: first override name
missing from the schema's declaration list. -/
def findUnknownName (names : List String) : List String → Option String
  | [] => none
  | n :: rest => if names.contains n then findUnknownName names rest else some n

/-- Embeds `validate_entity_names` (`src/override.rs` lines 240-279). -/
def validate_entity_names (entity_type : String) (override_names : List String)
    (idl_names : Option (List String)) : Except ValidationError Unit :=
  match override_names with
  | [] => .ok ()
  | first :: _ =>
    match idl_names with
    | some names =>
      match findUnknownName names override_names with
      | some bad =>
        .error (.UnknownEntity entity_type bad
          (if names.isEmpty then "(none)" else String.intercalate ", " names))
      | none => .ok ()
    | none =>
      .error (.UnknownEntity entity_type first
        ("(none - IDL has no " ++ entity_type ++ "s defined)"))

/-- The program-address checks of `validate_override_file`
(`src/override.rs` lines 307-332): decodable base58, exactly 32
bytes, not the all-zero system default. -/
def validateProgramAddressOpt (program_address : Option String) :
    Except ValidationError Unit :=
  match program_address with
  | none => .ok ()
  | some address =>
    match bs58Decode address with
    | some decoded =>
      if decoded.length ≠ 32 then .error (.InvalidProgramAddress address)
      else if decoded = List.replicate 32 0 then
        .error (.SystemDefaultPubkey address)
      else .ok ()
    | none => .error (.InvalidProgramAddress address)

/-- Embeds `validate_override_file` (`src/override.rs` lines
294-370): the empty-document check, then the address checks, then the
three all-zero discriminator checks, then the three entity-name
checks, in exactly the source's order. -/
def validate_override_file (file : OverrideFile) (idl : Idl) :
    Except ValidationError Unit :=
  if file.program_address.isNone && file.accounts.isEmpty
      && file.events.isEmpty && file.instructions.isEmpty then
    .error .EmptyOverrideFile
  else
    (validateProgramAddressOpt file.program_address).bind (fun _ =>
    (validate_discriminators "account" file.accounts).bind (fun _ =>
    (validate_discriminators "event" file.events).bind (fun _ =>
    (validate_discriminators "instruction" file.instructions).bind (fun _ =>
    (validate_entity_names "account" (file.accounts.map Prod.fst)
        (idl.accounts.map (fun accounts => accounts.map Account.name))).bind (fun _ =>
    (validate_entity_names "event" (file.events.map Prod.fst)
        (idl.events.map (fun events => events.map Event.name))).bind (fun _ =>
    validate_entity_names "instruction" (file.instructions.map Prod.fst)
      (if !idl.instructions.isEmpty
        then some (idl.instructions.map Instruction.name) else none)))))))

/-! ### Application (`src/override.rs`, `apply_overrides`) -/

/-- Embeds `OverrideType` from `src/override.rs`. -/
inductive OverrideType where
  | ProgramAddress
  | AccountDiscriminator
  | EventDiscriminator
  | InstructionDiscriminator
deriving DecidableEq

/-- Embeds `AppliedOverride` from `src/override.rs`. -/
structure AppliedOverride where
  override_type : OverrideType
  entity_name : Option String
  original_value : Option String
  override_value : String
deriving DecidableEq

/-- Rust's `format!("\x7b:?\x7d", bytes)` on a byte vector/array. -/
def debugFormatBytes (l : List Nat) : String :=
  "[" ++ String.intercalate ", " (l.map toString) ++ "]"

/-- The `map(..).unwrap_or("(none)")` formatting of a prior
discriminator in `apply_overrides`. -/
def formatOptBytes : Option (List Nat) → String
  | some d => debugFormatBytes d
  | none => "(none)"

/-- One step of the account loop of `apply_overrides`: replace the
discriminator when the override map names this account. -/
def patchAccountDisc (ovs : List (String × DiscriminatorOverride))
    (a : Account) : Account :=
  match List.lookup a.name ovs with
  | some dov => { a with discriminator := some dov.discriminator }
  | none => a

/-- One step of the event loop of `apply_overrides`. -/
def patchEventDisc (ovs : List (String × DiscriminatorOverride))
    (e : Event) : Event :=
  match List.lookup e.name ovs with
  | some dov => { e with discriminator := some dov.discriminator }
  | none => e

/-- One step of the instruction loop of `apply_overrides`. -/
def patchInstructionDisc (ovs : List (String × DiscriminatorOverride))
    (ix : Instruction) : Instruction :=
  match List.lookup ix.name ovs with
  | some dov => { ix with discriminator := some dov.discriminator }
  | none => ix

/-- Audit records pushed by the account loop of `apply_overrides`,
in schema declaration order. -/
def accountAppliedRecords (ovs : List (String × DiscriminatorOverride))
    (accounts : List Account) : List AppliedOverride :=
  accounts.filterMap (fun a =>
    (List.lookup a.name ovs).map (fun dov =>
      { override_type := .AccountDiscriminator
        entity_name := some a.name
        original_value := some (formatOptBytes a.discriminator)
        override_value := debugFormatBytes dov.discriminator }))

/-- Audit records pushed by the event loop of `apply_overrides`. -/
def eventAppliedRecords (ovs : List (String × DiscriminatorOverride))
    (events : List Event) : List AppliedOverride :=
  events.filterMap (fun e =>
    (List.lookup e.name ovs).map (fun dov =>
      { override_type := .EventDiscriminator
        entity_name := some e.name
        original_value := some (formatOptBytes e.discriminator)
        override_value := debugFormatBytes dov.discriminator }))

/-- Audit records pushed by the instruction loop of
`apply_overrides`. -/
def instructionAppliedRecords (ovs : List (String × DiscriminatorOverride))
    (ixs : List Instruction) : List AppliedOverride :=
  ixs.filterMap (fun ix =>
    (List.lookup ix.name ovs).map (fun dov =>
      { override_type := .InstructionDiscriminator
        entity_name := some ix.name
        original_value := some (formatOptBytes ix.discriminator)
        override_value := debugFormatBytes dov.discriminator }))

/-- Embeds `apply_overrides` (`src/override.rs` lines 384-476):
the address override first, then the three discriminator loops over
the schema's declaration lists, each recording an audit entry. The
Rust function returns `Result` but has no failure path; the model is
total. -/
def apply_overrides (idl : Idl) (file : OverrideFile) :
    Idl × List AppliedOverride :=
  let addressApplied : List AppliedOverride :=
    match file.program_address with
    | some new_address =>
      [{ override_type := .ProgramAddress
         entity_name := none
         original_value := idl.address
         override_value := new_address }]
    | none => []
  let newAddress : Option String :=
    match file.program_address with
    | some new_address => some new_address
    | none => idl.address
  let accountsApplied : List AppliedOverride :=
    match idl.accounts with
    | some accounts => accountAppliedRecords file.accounts accounts
    | none => []
  let eventsApplied : List AppliedOverride :=
    match idl.events with
    | some events => eventAppliedRecords file.events events
    | none => []
  let instructionsApplied := instructionAppliedRecords file.instructions idl.instructions
  ({ idl with
      address := newAddress
      accounts := idl.accounts.map (List.map (patchAccountDisc file.accounts))
      events := idl.events.map (List.map (patchEventDisc file.events))
      instructions := idl.instructions.map (patchInstructionDisc file.instructions) },
    addressApplied ++ accountsApplied ++ eventsApplied ++ instructionsApplied)

/-! ### Validation helper lemmas -/

/-- Does a discriminator-override map contain an all-zero entry? -/
def hasZeroDisc (ovs : List (String × DiscriminatorOverride)) : Bool :=
  ovs.any (fun p => p.2.discriminator == zeroDisc)

/-- Does a validation result report an all-zero discriminator? -/
def resultIsAllZeroError : Except ValidationError Unit → Bool
  | .error (.AllZeroDiscriminator _ _) => true
  | _ => false

/-- Does a validation result report an unknown entity? -/
def resultIsUnknownEntityError : Except ValidationError Unit → Bool
  | .error (.UnknownEntity _ _ _) => true
  | _ => false

/-- Does a validation result report an unknown ACCOUNT with the given
diagnostic of available names? -/
def resultIsUnknownAccountError (r : Except ValidationError Unit)
    (avail : String) : Bool :=
  match r with
  | .error (.UnknownEntity et _ a) => et == "account" && a == avail
  | _ => false

/-- Does an override document contain an all-zero discriminator for
any entity (account, event or instruction)? -/
def fileHasAllZeroDisc (file : OverrideFile) : Bool :=
  hasZeroDisc file.accounts || hasZeroDisc file.events || hasZeroDisc file.instructions

theorem validate_discriminators_ok (et : String)
    (ovs : List (String × DiscriminatorOverride)) (h : hasZeroDisc ovs = false) :
    validate_discriminators et ovs = .ok () := by
  induction ovs with
  | nil => rfl
  | cons p rest ih =>
    obtain ⟨n, d⟩ := p
    simp only [hasZeroDisc, List.any_cons, Bool.or_eq_false_iff, beq_eq_false_iff_ne,
      ne_eq] at h
    rw [validate_discriminators, if_neg h.1]
    exact ih h.2

theorem validate_discriminators_allzero (et : String)
    (ovs : List (String × DiscriminatorOverride)) (h : hasZeroDisc ovs = true) :
    ∃ nm, validate_discriminators et ovs = .error (.AllZeroDiscriminator et nm) := by
  induction ovs with
  | nil => simp [hasZeroDisc] at h
  | cons p rest ih =>
    obtain ⟨n, d⟩ := p
    by_cases hd : d.discriminator = zeroDisc
    · exact ⟨n, by rw [validate_discriminators, if_pos hd]⟩
    · rw [validate_discriminators, if_neg hd]
      apply ih
      simpa [hasZeroDisc, hd] using h

theorem hasZeroDisc_nonempty (ovs : List (String × DiscriminatorOverride))
    (h : hasZeroDisc ovs = true) : ovs.isEmpty = false := by
  cases ovs with
  | nil => simp [hasZeroDisc] at h
  | cons p rest => rfl

theorem findUnknownName_some (names : List String) (ovNames : List String)
    (h : ovNames.any (fun n => !names.contains n) = true) :
    ∃ bad, findUnknownName names ovNames = some bad := by
  induction ovNames with
  | nil => simp at h
  | cons n rest ih =>
    by_cases hc : names.contains n = true
    · rw [findUnknownName, if_pos hc]
      apply ih
      rw [List.any_cons] at h
      simp only [hc, Bool.not_true, Bool.false_or] at h
      exact h
    · exact ⟨n, by rw [findUnknownName, if_neg hc]⟩

/-! ### Claim C6 -/

/-- A schema with no declarations at all. -/
def emptyIdl : Idl :=
  { address := none, version := none, name := none, metadata := none,
    instructions := [], accounts := none, types := none, errors := none,
    events := none, constants := none }

/-- An override document with BOTH an invalid program address and an
all-zero account discriminator. -/
def c6BadAddressFile : OverrideFile :=
  { program_address := some ""
    accounts := [("X", { discriminator := zeroDisc })]
    events := []
    instructions := [] }

/-- Claim C6 is false as stated: a document containing an all-zero
discriminator does not ALWAYS fail with the all-zero discriminator
error — when the same document also carries an invalid program
address, the address check runs first and its error is reported
instead. -/
theorem c6_counterexample :
    fileHasAllZeroDisc c6BadAddressFile = true ∧
    validate_override_file c6BadAddressFile emptyIdl
      = .error (.InvalidProgramAddress "") ∧
    resultIsAllZeroError (.error (.InvalidProgramAddress "")) = false := by
  refine ⟨by decide, by rfl, rfl⟩

/-- Claim C6 (amended): validating a document that contains an
all-zero 8-byte discriminator for any entity fails with the all-zero
discriminator error regardless of the schema's contents, PROVIDED the
document's program-address override (if any) itself passes the
address checks — otherwise the address error is reported first. -/
theorem c6_allzero_always_rejected (file : OverrideFile) (idl : Idl)
    (haddr : validateProgramAddressOpt file.program_address = .ok ())
    (hzero : fileHasAllZeroDisc file = true) :
    resultIsAllZeroError (validate_override_file file idl) = true := by
  have hcases : hasZeroDisc file.accounts = true ∨ hasZeroDisc file.events = true ∨
      hasZeroDisc file.instructions = true := by
    simpa [fileHasAllZeroDisc, Bool.or_eq_true, or_assoc] using hzero
  have hcond : (file.program_address.isNone && file.accounts.isEmpty
      && file.events.isEmpty && file.instructions.isEmpty) = false := by
    rcases hcases with h | h | h <;> simp [hasZeroDisc_nonempty _ h]
  rw [validate_override_file, if_neg (by simp [hcond]), haddr]
  by_cases ha : hasZeroDisc file.accounts = true
  · obtain ⟨nm, he⟩ := validate_discriminators_allzero "account" file.accounts ha
    simp [he, Except.bind, resultIsAllZeroError]
  · have ha' : hasZeroDisc file.accounts = false := by simpa using ha
    rw [Except.bind, validate_discriminators_ok "account" file.accounts ha']
    by_cases hev : hasZeroDisc file.events = true
    · obtain ⟨nm, he⟩ := validate_discriminators_allzero "event" file.events hev
      simp [he, Except.bind, resultIsAllZeroError]
    · have hev' : hasZeroDisc file.events = false := by simpa using hev
      rw [Except.bind, validate_discriminators_ok "event" file.events hev']
      have hix : hasZeroDisc file.instructions = true := by
        rcases hcases with h | h | h
        · exact absurd h ha
        · exact absurd h hev
        · exact h
      obtain ⟨nm, he⟩ := validate_discriminators_allzero "instruction" file.instructions hix
      simp [he, Except.bind, resultIsAllZeroError]

/-- An override document whose only content is one all-zero account
discriminator (and no address override). -/
def c6ZeroOnlyFile : OverrideFile :=
  { program_address := none
    accounts := [("X", { discriminator := zeroDisc })]
    events := []
    instructions := [] }

/-- Witness for `c6_allzero_always_rejected` on a concrete document
and schema. -/
theorem c6_allzero_always_rejected_witness :
    resultIsAllZeroError (validate_override_file c6ZeroOnlyFile emptyIdl) = true :=
  c6_allzero_always_rejected c6ZeroOnlyFile emptyIdl rfl (by decide)

/-! ### Claim C7 -/

/-- The diagnostic string of available account names that
`validate_override_file` attaches to an unknown-account error. -/
def accountAvailableDiagnostic (idl : Idl) : String :=
  match idl.accounts with
  | some accounts =>
    if (accounts.map Account.name).isEmpty then "(none)"
    else String.intercalate ", " (accounts.map Account.name)
  | none => "(none - IDL has no accounts defined)"

/-- Does an override document reference an account name that is
absent from the schema's accounts list? -/
def fileHasUnknownAccount (file : OverrideFile) (idl : Idl) : Bool :=
  match idl.accounts with
  | some accounts =>
    (file.accounts.map Prod.fst).any (fun n => !(accounts.map Account.name).contains n)
  | none => !file.accounts.isEmpty

/-- A schema declaring exactly one account, named `Real`. -/
def c7Idl : Idl :=
  { emptyIdl with
    accounts := some [{ name := "Real", discriminator := none, docs := none, ty := none }] }

/-- An override document that references an unknown account name AND
gives it an all-zero discriminator. -/
def c7ZeroUnknownFile : OverrideFile :=
  { program_address := none
    accounts := [("Nope", { discriminator := zeroDisc })]
    events := []
    instructions := [] }

/-- Claim C7 is false as stated: a document referencing an unknown
account name does not ALWAYS fail with the unknown-entity error — the
all-zero discriminator check runs first, so when the unknown entry
also carries an all-zero discriminator, the all-zero error is
reported instead. -/
theorem c7_counterexample :
    fileHasUnknownAccount c7ZeroUnknownFile c7Idl = true ∧
    validate_override_file c7ZeroUnknownFile c7Idl
      = .error (.AllZeroDiscriminator "account" "Nope") ∧
    resultIsUnknownEntityError
      (.error (.AllZeroDiscriminator "account" "Nope")) = false := by
  refine ⟨by decide, by rfl, rfl⟩

/-- Claim C7 (amended): validating a document that references an
account name absent from the schema's accounts list fails with an
unknown-entity error carrying the schema's actual account names (or an
explicit none marker when the schema declares no accounts), PROVIDED
the document's address and discriminator values themselves pass the
earlier validation steps. -/
theorem c7_unknown_account_rejected (file : OverrideFile) (idl : Idl)
    (haddr : validateProgramAddressOpt file.program_address = .ok ())
    (hzero : fileHasAllZeroDisc file = false)
    (hunk : fileHasUnknownAccount file idl = true) :
    resultIsUnknownAccountError (validate_override_file file idl)
      (accountAvailableDiagnostic idl) = true := by
  have hz : hasZeroDisc file.accounts = false ∧ hasZeroDisc file.events = false ∧
      hasZeroDisc file.instructions = false := by
    simpa [fileHasAllZeroDisc, Bool.or_eq_false_iff, and_assoc] using hzero
  cases hfa : file.accounts with
  | nil =>
    exfalso
    cases hacc : idl.accounts <;> simp [fileHasUnknownAccount, hacc, hfa] at hunk
  | cons p prest =>
    have hcond : (file.program_address.isNone && file.accounts.isEmpty
        && file.events.isEmpty && file.instructions.isEmpty) = false := by
      simp [hfa]
    rw [validate_override_file, if_neg (by simp [hcond]), haddr, Except.bind,
      validate_discriminators_ok "account" file.accounts hz.1, Except.bind,
      validate_discriminators_ok "event" file.events hz.2.1, Except.bind,
      validate_discriminators_ok "instruction" file.instructions hz.2.2, Except.bind]
    cases hacc : idl.accounts with
    | some accounts =>
      have hany : (file.accounts.map Prod.fst).any
          (fun n => !(accounts.map Account.name).contains n) = true := by
        simpa [fileHasUnknownAccount, hacc] using hunk
      obtain ⟨bad, hfind⟩ := findUnknownName_some (accounts.map Account.name)
        (file.accounts.map Prod.fst) hany
      rw [hfa] at hfind
      simp only [List.map_cons] at hfind
      simp only [hfa, Option.map, List.map_cons, validate_entity_names, hfind, Except.bind]
      simp [resultIsUnknownAccountError, accountAvailableDiagnostic, hacc]
    | none =>
      simp only [hfa, Option.map, List.map_cons, validate_entity_names, Except.bind]
      simp [resultIsUnknownAccountError, accountAvailableDiagnostic, hacc]

/-- An override document referencing an unknown account name with a
valid (non-zero) discriminator. -/
def c7UnknownFile : OverrideFile :=
  { program_address := none
    accounts := [("Nope", { discriminator := [1, 2, 3, 4, 5, 6, 7, 8] })]
    events := []
    instructions := [] }

/-- Witness for `c7_unknown_account_rejected` on a concrete document
and schema. -/
theorem c7_unknown_account_rejected_witness :
    resultIsUnknownAccountError (validate_override_file c7UnknownFile c7Idl)
      (accountAvailableDiagnostic c7Idl) = true :=
  c7_unknown_account_rejected c7UnknownFile c7Idl rfl (by decide) (by decide)

/-! ### Claim C5 -/

/-- A schema whose only address lives in the metadata sub-object. -/
def c5MetaAddrIdl : Idl :=
  { emptyIdl with
    metadata := some
      { name := none, version := none, spec := none, description := none,
        address := some "METAADDR" } }

/-- An override document carrying only a (valid, non-default) address
override. -/
def c5AddressFile : OverrideFile :=
  { program_address := some "11111111111111111111111111111112"
    accounts := []
    events := []
    instructions := [] }

/-- Claim C5 is false as stated: for a schema whose resolved address
comes from the metadata sub-object, the audit record's original value
is the "none" marker even though the schema's pre-override (resolved)
address was present — `apply_overrides` records only the top-level
`address` field, not the resolved address. -/
theorem c5_counterexample :
    validate_override_file c5AddressFile c5MetaAddrIdl = .ok () ∧
    c5MetaAddrIdl.get_address = some "METAADDR" ∧
    (apply_overrides c5MetaAddrIdl c5AddressFile).2
      = [{ override_type := .ProgramAddress, entity_name := none,
           original_value := none,
           override_value := "11111111111111111111111111111112" }] ∧
    some "METAADDR" ≠ (none : Option String) := by
  refine ⟨by rfl, rfl, by rfl, by decide⟩

/-- Claim C5 (amended): applying a validated override document with an
address override replaces the schema's RESOLVED address exactly with
the override value, and the audit record (the first record emitted)
carries as original value the schema's pre-override TOP-LEVEL address
field — the "none" marker when that field is absent, even if a
metadata-level address was present. -/
theorem c5_address_override_applied (idl : Idl) (file : OverrideFile) (na : String)
    (hval : validate_override_file file idl = .ok ())
    (ha : file.program_address = some na) :
    (apply_overrides idl file).1.get_address = some na ∧
    ∃ rest, (apply_overrides idl file).2
      = { override_type := .ProgramAddress, entity_name := none,
          original_value := idl.address, override_value := na } :: rest := by
  constructor
  · simp [apply_overrides, ha, Idl.get_address]
  · refine ⟨(match idl.accounts with
        | some accounts => accountAppliedRecords file.accounts accounts
        | none => []) ++
        ((match idl.events with
          | some events => eventAppliedRecords file.events events
          | none => []) ++
          instructionAppliedRecords file.instructions idl.instructions), ?_⟩
    simp [apply_overrides, ha]

/-- Witness for `c5_address_override_applied` on a concrete schema
and override document. -/
theorem c5_address_override_applied_witness :
    (apply_overrides c5MetaAddrIdl c5AddressFile).1.get_address
        = some "11111111111111111111111111111112" ∧
      ∃ rest, (apply_overrides c5MetaAddrIdl c5AddressFile).2
        = { override_type := .ProgramAddress, entity_name := none,
            original_value := c5MetaAddrIdl.address,
            override_value := "11111111111111111111111111111112" } :: rest :=
  c5_address_override_applied c5MetaAddrIdl c5AddressFile
    "11111111111111111111111111111112" (by rfl) rfl

/-! ### Claim C9 -/

/-- Claim C9 (frame property of `apply_overrides`): only the
top-level address and the discriminators of entities named in the
override document can change.  The version, name, metadata, types,
errors and constants fields are untouched; the address changes only
when the document carries an address override; the three declaration
lists are mapped entity-by-entity by a patch that leaves every field
except the discriminator unchanged, leaves entities whose names are
not keys of the corresponding override map entirely unchanged, and
sets the discriminator of named entities to the override value. -/
theorem c9_apply_overrides_frame (idl : Idl) (file : OverrideFile) :
    ((apply_overrides idl file).1.version = idl.version ∧
      (apply_overrides idl file).1.name = idl.name ∧
      (apply_overrides idl file).1.metadata = idl.metadata ∧
      (apply_overrides idl file).1.types = idl.types ∧
      (apply_overrides idl file).1.errors = idl.errors ∧
      (apply_overrides idl file).1.constants = idl.constants) ∧
    ((file.program_address = none →
        (apply_overrides idl file).1.address = idl.address) ∧
      (∀ a, file.program_address = some a →
        (apply_overrides idl file).1.address = some a)) ∧
    ((apply_overrides idl file).1.accounts
        = idl.accounts.map (List.map (patchAccountDisc file.accounts)) ∧
      (apply_overrides idl file).1.events
        = idl.events.map (List.map (patchEventDisc file.events)) ∧
      (apply_overrides idl file).1.instructions
        = idl.instructions.map (patchInstructionDisc file.instructions)) ∧
    (∀ a : Account,
      (patchAccountDisc file.accounts a).name = a.name ∧
      (patchAccountDisc file.accounts a).docs = a.docs ∧
      (patchAccountDisc file.accounts a).ty = a.ty ∧
      (List.lookup a.name file.accounts = none →
        patchAccountDisc file.accounts a = a) ∧
      (∀ dov, List.lookup a.name file.accounts = some dov →
        (patchAccountDisc file.accounts a).discriminator = some dov.discriminator)) ∧
    (∀ e : Event,
      (patchEventDisc file.events e).name = e.name ∧
      (patchEventDisc file.events e).fields = e.fields ∧
      (List.lookup e.name file.events = none → patchEventDisc file.events e = e) ∧
      (∀ dov, List.lookup e.name file.events = some dov →
        (patchEventDisc file.events e).discriminator = some dov.discriminator)) ∧
    (∀ ix : Instruction,
      (patchInstructionDisc file.instructions ix).name = ix.name ∧
      (patchInstructionDisc file.instructions ix).docs = ix.docs ∧
      (patchInstructionDisc file.instructions ix).accounts = ix.accounts ∧
      (patchInstructionDisc file.instructions ix).args = ix.args ∧
      (List.lookup ix.name file.instructions = none →
        patchInstructionDisc file.instructions ix = ix) ∧
      (∀ dov, List.lookup ix.name file.instructions = some dov →
        (patchInstructionDisc file.instructions ix).discriminator
          = some dov.discriminator)) := by
  refine ⟨⟨?_, ?_, ?_, ?_, ?_, ?_⟩, ⟨?_, ?_⟩, ⟨?_, ?_, ?_⟩, ?_, ?_, ?_⟩
  · simp [apply_overrides]
  · simp [apply_overrides]
  · simp [apply_overrides]
  · simp [apply_overrides]
  · simp [apply_overrides]
  · simp [apply_overrides]
  · intro h; simp [apply_overrides, h]
  · intro a h; simp [apply_overrides, h]
  · simp [apply_overrides]
  · simp [apply_overrides]
  · simp [apply_overrides]
  · intro a
    refine ⟨?_, ?_, ?_, ?_, ?_⟩ <;>
      first
        | (intro h; simp [patchAccountDisc, h])
        | (intro dov h; simp [patchAccountDisc, h])
        | (unfold patchAccountDisc; cases List.lookup a.name file.accounts <;> simp)
  · intro e
    refine ⟨?_, ?_, ?_, ?_⟩ <;>
      first
        | (intro h; simp [patchEventDisc, h])
        | (intro dov h; simp [patchEventDisc, h])
        | (unfold patchEventDisc; cases List.lookup e.name file.events <;> simp)
  · intro ix
    refine ⟨?_, ?_, ?_, ?_, ?_, ?_⟩ <;>
      first
        | (intro h; simp [patchInstructionDisc, h])
        | (intro dov h; simp [patchInstructionDisc, h])
        | (unfold patchInstructionDisc;
            cases List.lookup ix.name file.instructions <;> simp)

/-- A schema and document exercising the frame property: one account
named in the document, one not. -/
def c9Idl : Idl :=
  { emptyIdl with
    address := some "ADDR"
    accounts := some
      [{ name := "Patched", discriminator := some [9, 9, 9, 9, 9, 9, 9, 9],
         docs := none, ty := none },
       { name := "Untouched", discriminator := some [7, 7, 7, 7, 7, 7, 7, 7],
         docs := none, ty := none }] }

/-- An override document naming only the `Patched` account. -/
def c9File : OverrideFile :=
  { program_address := none
    accounts := [("Patched", { discriminator := [1, 2, 3, 4, 5, 6, 7, 8] })]
    events := []
    instructions := [] }

/-- Witness for `c9_apply_overrides_frame` on a concrete schema and
document: the address is untouched and an entity not named in the
document keeps its discriminator. -/
theorem c9_apply_overrides_frame_witness :
    (apply_overrides c9Idl c9File).1.address = c9Idl.address ∧
    patchAccountDisc c9File.accounts
        { name := "Untouched", discriminator := some [7, 7, 7, 7, 7, 7, 7, 7],
          docs := none, ty := none }
      = { name := "Untouched", discriminator := some [7, 7, 7, 7, 7, 7, 7, 7],
          docs := none, ty := none } :=
  ⟨(c9_apply_overrides_frame c9Idl c9File).2.1.1 rfl,
    ((c9_apply_overrides_frame c9Idl c9File).2.2.2.1
        { name := "Untouched", discriminator := some [7, 7, 7, 7, 7, 7, 7, 7],
          docs := none, ty := none }).2.2.2.1 (by decide)⟩

/-! ## Aggregator module emission (`src/codegen.rs`,
`generate_lib_module`) -/

/-- The fixed first line of the generated `lib.rs`
(`format!("//! Generated Solana program bindings\n\n...")`). -/
def libHeader : String := "//! Generated Solana program bindings\n\n"

/-- The `declare_id!` line emitted when the schema resolves an
address. -/
def declareIdDeclaration (address : String) : String :=
  "solana_program::declare_id!(\"" ++ address ++ "\");\n\n"

/-- The placeholder comment emitted when no address is resolved. -/
def placeholderIdDeclaration : String :=
  "// Program ID not specified in IDL\n// solana_program::declare_id!(\"YourProgramIdHere\");\n\n"

/-- The `program_id_declaration` selection of `generate_lib_module`
(`src/codegen.rs` lines 261-266), driven by `Idl::get_address`. -/
def programIdDeclaration (idl : Idl) : String :=
  match idl.get_address with
  | some address => declareIdDeclaration address
  | none => placeholderIdDeclaration

/-- The fixed remainder of the generated `lib.rs` after the program-id
declaration: module declarations, re-exports (note: no
`pub use events::*;`) and the serde helper function. -/
def libTail : String :=
  "pub mod accounts;\npub mod errors;\npub mod events;\npub mod instructions;\npub mod types;\n\n// Re-export commonly used types\npub use accounts::*;\npub use errors::*;\npub use instructions::*;\npub use types::*;\n\n// Helper function for serde serialization of Pubkey as string\n#[cfg(feature = \"serde\")]\npub fn serialize_pubkey_as_string<S>(\n    pubkey: &solana_program::pubkey::Pubkey,\n    serializer: S,\n) -> Result<S::Ok, S::Error>\nwhere\n    S: serde::Serializer,\n\x7b\n    serializer.serialize_str(&pubkey.to_string())\n\x7d\n"

/-- Embeds `generate_lib_module` (`src/codegen.rs` lines 260-301). -/
def generate_lib_module (idl : Idl) : String :=
  libHeader ++ (programIdDeclaration idl ++ libTail)

/-- Does `pat` occur at the very start of `l`? -/
def startsWithChars : List Char → List Char → Bool
  | [], _ => true
  | _ :: _, [] => false
  | a :: as_, b :: bs => a == b && startsWithChars as_ bs

/-- Does `pat` occur anywhere inside `l` as a contiguous substring? -/
def hasSubSeq (pat : List Char) : List Char → Bool
  | [] => pat.isEmpty
  | c :: rest => startsWithChars pat (c :: rest) || hasSubSeq pat rest

theorem hasSubSeq_append_left (pat l l' : List Char)
    (h : hasSubSeq pat l = true) : hasSubSeq pat (l' ++ l) = true := by
  induction l' with
  | nil => simpa using h
  | cons c rest ih =>
    rw [List.cons_append, hasSubSeq, ih, Bool.or_true]

/-- Claim C8: for every schema, the emitted aggregator unit
re-exports the accounts, errors, instructions and types groups into
its namespace, but never re-exports the event declarations (no
`pub use events` appears in any fixed part of the template); and it
emits the program's `declare_id!` constant exactly when an address is
resolved, and the placeholder comment otherwise. -/
theorem c8_aggregator_reexports_and_address (idl : Idl) :
    generate_lib_module idl = libHeader ++ (programIdDeclaration idl ++ libTail) ∧
    hasSubSeq "pub use accounts::*;".toList (generate_lib_module idl).toList = true ∧
    hasSubSeq "pub use errors::*;".toList (generate_lib_module idl).toList = true ∧
    hasSubSeq "pub use instructions::*;".toList (generate_lib_module idl).toList = true ∧
    hasSubSeq "pub use types::*;".toList (generate_lib_module idl).toList = true ∧
    hasSubSeq "pub use events".toList libHeader.toList = false ∧
    hasSubSeq "pub use events".toList placeholderIdDeclaration.toList = false ∧
    hasSubSeq "pub use events".toList libTail.toList = false ∧
    (∀ a, idl.get_address = some a → programIdDeclaration idl = declareIdDeclaration a) ∧
    (idl.get_address = none → programIdDeclaration idl = placeholderIdDeclaration) := by
  have hdata : (generate_lib_module idl).toList
      = (libHeader.toList ++ (programIdDeclaration idl).toList) ++ libTail.toList := by
    show (generate_lib_module idl).data
      = (libHeader.data ++ (programIdDeclaration idl).data) ++ libTail.data
    rw [generate_lib_module, String.data_append, String.data_append, List.append_assoc]
  have lift : ∀ pat : List Char, hasSubSeq pat libTail.toList = true →
      hasSubSeq pat (generate_lib_module idl).toList = true := by
    intro pat h
    rw [hdata]
    exact hasSubSeq_append_left pat _ _ h
  refine ⟨rfl, lift _ (by decide), lift _ (by decide), lift _ (by decide),
    lift _ (by decide), by decide, by decide, by decide, ?_, ?_⟩
  · intro a ha
    rw [programIdDeclaration, ha]
  · intro ha
    rw [programIdDeclaration, ha]

/-- Witness for `c8_aggregator_reexports_and_address` on a concrete
schema without an address. -/
theorem c8_aggregator_reexports_and_address_witness :
    programIdDeclaration emptyIdl = placeholderIdDeclaration ∧
    hasSubSeq "pub use accounts::*;".toList (generate_lib_module emptyIdl).toList
      = true :=
  ⟨(c8_aggregator_reexports_and_address emptyIdl).2.2.2.2.2.2.2.2.2 rfl,
    (c8_aggregator_reexports_and_address emptyIdl).2.1⟩

/-! ## Borsh serialization of generated account/event types
(`src/codegen.rs`, the `try_from_slice_with_discriminator` /
`serialize_with_discriminator` impls and the event wrapper impls)

The generated Rust types derive `BorshSerialize`/`BorshDeserialize`.
We model a runtime value of a generated type as `Value`:
integers and floats are their little-endian bit patterns, strings are
their UTF-8 byte sequences (borsh's UTF-8 re-validation on decode is
the identity on encoder output and is therefore not re-modelled), and
struct/enum values list their field/payload values in declared order.
`encode` is the borsh wire encoding; `decode` is the borsh decoder,
type-directed with a fuel bound on the nesting depth of named-type
references; `hasTy` says that a value populates every declared field
of a type (within the same fuel bound). -/

/-- Type environment: the schema's `types` list, looked up by name as
the generated code resolves a named reference. -/
abbrev TypeEnv := List TypeDef

/-- Resolve a type name exactly as the emitted identifier does: the
first `TypeDef` with that name. -/
def lookupTypeDef (env : TypeEnv) (name : String) : Option TypeDef :=
  env.find? (fun td => td.name == name)

/-- Declared field types of a struct body, in order. -/
def fieldTypes : StructFields → List IdlType
  | .named fields => fields.map Field.ty
  | .tuple types => types

/-- Declared field types of one enum variant, in order. -/
def variantFieldTypes (v : EnumVariant) : List IdlType :=
  match v.fields with
  | some (.named fields) => fields.map Field.ty
  | some (.tuple types) => types
  | none => []

/-- The scalar table of `map_idl_type` (`src/codegen.rs` lines
1447-1467): byte width per integer/float spelling, the three address
spellings, `string` and `bytes`; any other name falls through to a
named-type identifier. -/
inductive ScalarKind where
  | sBool
  | sInt (nbytes : Nat)
  | sFloat (nbytes : Nat)
  | sString
  | sPubkey
  | sBytes
deriving DecidableEq

/-- Classify a `Simple` type-name string per `map_idl_type`. -/
def scalarKind (s : String) : Option ScalarKind :=
  match s with
  | "bool" => some .sBool
  | "u8" => some (.sInt 1)
  | "i8" => some (.sInt 1)
  | "u16" => some (.sInt 2)
  | "i16" => some (.sInt 2)
  | "u32" => some (.sInt 4)
  | "i32" => some (.sInt 4)
  | "u64" => some (.sInt 8)
  | "i64" => some (.sInt 8)
  | "u128" => some (.sInt 16)
  | "i128" => some (.sInt 16)
  | "f32" => some (.sFloat 4)
  | "f64" => some (.sFloat 8)
  | "string" => some .sString
  | "publicKey" => some .sPubkey
  | "pubkey" => some .sPubkey
  | "Pubkey" => some .sPubkey
  | "bytes" => some .sBytes
  | _ => none

/-- A runtime value of a generated type. -/
inductive Value where
  | vBool (b : Bool)
  | vInt (nbytes : Nat) (bits : Nat)
  | vString (bytes : List Nat)
  | vPubkey (bytes : List Nat)
  | vVec (elems : List Value)
  | vOpt (o : Option Value)
  | vArray (elems : List Value)
  | vStruct (fields : List Value)
  | vEnum (tag : Nat) (payload : List Value)

/-- Little-endian byte encoding of width `k` (borsh integer/float
layout). -/
def leBytes : Nat → Nat → List Nat
  | 0, _ => []
  | k + 1, n => n % 256 :: leBytes k (n / 256)

/-- Read a `k`-byte little-endian integer off the front of a byte
stream. -/
def readLE : Nat → List Nat → Option (Nat × List Nat)
  | 0, bs => some (0, bs)
  | _ + 1, [] => none
  | k + 1, b :: bs =>
    match readLE k bs with
    | some (m, rest) => some (b + 256 * m, rest)
    | none => none

/-- Read `k` raw bytes off the front of a byte stream. -/
def readBytes : Nat → List Nat → Option (List Nat × List Nat)
  | 0, bs => some ([], bs)
  | _ + 1, [] => none
  | k + 1, b :: bs =>
    match readBytes k bs with
    | some (taken, rest) => some (b :: taken, rest)
    | none => none

/-- Is the 32-bit pattern an IEEE-754 NaN?  (borsh refuses NaN floats
in both directions.) -/
def isNanBits32 (bits : Nat) : Bool :=
  bits / 2 ^ 23 % 256 == 255 && bits % 2 ^ 23 != 0

/-- Is the 64-bit pattern an IEEE-754 NaN? -/
def isNanBits64 (bits : Nat) : Bool :=
  bits / 2 ^ 52 % 2048 == 2047 && bits % 2 ^ 52 != 0

/-- NaN test for the float width in bytes. -/
def isNanBits (nbytes bits : Nat) : Bool :=
  match nbytes with
  | 4 => isNanBits32 bits
  | 8 => isNanBits64 bits
  | _ => false

mutual

/-- The borsh wire encoding of a value (what the derived
`BorshSerialize` writes): integers little-endian, strings and vectors
with a `u32` length prefix, options with a one-byte tag, fixed arrays
and structs as the plain concatenation of their elements/fields,
enums as a `u8` variant tag followed by the payload fields. -/
def encode : Value → List Nat
  | .vBool b => [if b then 1 else 0]
  | .vInt nbytes bits => leBytes nbytes bits
  | .vString bytes => leBytes 4 bytes.length ++ bytes
  | .vPubkey bytes => bytes
  | .vVec elems => leBytes 4 elems.length ++ encodeList elems
  | .vOpt none => [0]
  | .vOpt (some v) => 1 :: encode v
  | .vArray elems => encodeList elems
  | .vStruct fields => encodeList fields
  | .vEnum tag payload => tag :: encodeList payload

/-- Concatenated encodings of a value list. -/
def encodeList : List Value → List Nat
  | [] => []
  | v :: vs => encode v ++ encodeList vs

end

/-! ### Typing: a value populating every declared field of a type -/

/-- One typing step for a field-type/field-value list (the `rec`
argument ties the knot at one lower fuel). -/
def hasTyListF (rec : IdlType → Value → Bool) :
    List IdlType → List Value → Bool
  | [], [] => true
  | t :: ts, v :: vs => rec t v && hasTyListF rec ts vs
  | _, _ => false

/-- One typing step for a homogeneous element list. -/
def hasTyElemsF (rec : IdlType → Value → Bool) (ty : IdlType) :
    List Value → Bool
  | [] => true
  | v :: vs => rec ty v && hasTyElemsF rec ty vs

/-- One typing step against a struct/enum body.  An enum value must
carry a variant tag below the variant count (and the derived borsh
tag is a single `u8`, so at most 256 variants are representable). -/
def hasTyBodyF (rec : IdlType → Value → Bool) :
    TypeDefType → Value → Bool
  | .struct sf, .vStruct fields => hasTyListF rec (fieldTypes sf) fields
  | .enum variants, .vEnum tag payload =>
    decide (variants.length ≤ 256) &&
      (match variants.get? tag with
       | some variant => hasTyListF rec (variantFieldTypes variant) payload
       | none => false)
  | _, _ => false

/-- One typing step against a named type reference. -/
def hasTyNamedF (rec : IdlType → Value → Bool) (env : TypeEnv)
    (name : String) (v : Value) : Bool :=
  match lookupTypeDef env name with
  | some td => hasTyBodyF rec td.ty v
  | none => false

/-- One typing step against a `Simple` type name: the scalar table of
`map_idl_type`, or (for an unrecognised name) the same named-type
fallback the code generator emits.  Integer/float widths bound the
bit pattern; string and vector lengths must fit the `u32` prefix;
float bit patterns must not be NaN (borsh refuses NaN). -/
def hasTyScalarF (rec : IdlType → Value → Bool) (env : TypeEnv)
    (s : String) (v : Value) : Bool :=
  match scalarKind s, v with
  | some .sBool, .vBool _ => true
  | some (.sInt k), .vInt k' bits => k' == k && decide (bits < 256 ^ k)
  | some (.sFloat k), .vInt k' bits =>
    k' == k && decide (bits < 256 ^ k) && !isNanBits k bits
  | some .sString, .vString bytes =>
    decide (bytes.length < 256 ^ 4) && bytes.all (fun b => decide (b < 256))
  | some .sPubkey, .vPubkey bytes =>
    bytes.length == 32 && bytes.all (fun b => decide (b < 256))
  | some .sBytes, .vVec elems =>
    decide (elems.length < 256 ^ 4) && hasTyElemsF rec (.simple "u8") elems
  | none, v => hasTyNamedF rec env s v
  | _, _ => false

/-- One typing step against an abstract type expression. -/
def hasTyF (rec : IdlType → Value → Bool) (env : TypeEnv) :
    IdlType → Value → Bool
  | .simple s, v => hasTyScalarF rec env s v
  | .vecOf ty, .vVec elems =>
    decide (elems.length < 256 ^ 4) && hasTyElemsF rec ty elems
  | .optionOf ty, .vOpt o =>
    match o with
    | none => true
    | some v => rec ty v
  | .arrayOf ty size, .vArray elems =>
    elems.length == size && hasTyElemsF rec ty elems
  | .defined d, v => hasTyNamedF rec env d.name v
  | _, _ => false

/-- `hasTy fuel env ty v`: the value `v` populates every declared
field of `ty`, with named-reference nesting depth below `fuel`. -/
def hasTy : Nat → TypeEnv → IdlType → Value → Bool
  | 0, _, _, _ => false
  | fuel + 1, env, ty, v => hasTyF (hasTy fuel env) env ty v

/-! ### Decoding: the derived `BorshDeserialize` -/

/-- One decoding step for a field-type list: fields are decoded
sequentially in declared order off one byte stream. -/
def decodeListF (rec : IdlType → List Nat → Option (Value × List Nat)) :
    List IdlType → List Nat → Option (List Value × List Nat)
  | [], bs => some ([], bs)
  | t :: ts, bs =>
    match rec t bs with
    | some (v, bs') =>
      match decodeListF rec ts bs' with
      | some (vs, bs'') => some (v :: vs, bs'')
      | none => none
    | none => none

/-- One decoding step for `count` homogeneous elements. -/
def decodeElemsF (rec : IdlType → List Nat → Option (Value × List Nat))
    (ty : IdlType) : Nat → List Nat → Option (List Value × List Nat)
  | 0, bs => some ([], bs)
  | k + 1, bs =>
    match rec ty bs with
    | some (v, bs') =>
      match decodeElemsF rec ty k bs' with
      | some (vs, bs'') => some (v :: vs, bs'')
      | none => none
    | none => none

/-- One decoding step against a struct/enum body: a struct decodes its
fields in order; an enum reads a one-byte variant tag, rejects a tag
with no variant, then decodes that variant's payload. -/
def decodeBodyF (rec : IdlType → List Nat → Option (Value × List Nat)) :
    TypeDefType → List Nat → Option (Value × List Nat)
  | .struct sf, bs =>
    match decodeListF rec (fieldTypes sf) bs with
    | some (vs, rest) => some (.vStruct vs, rest)
    | none => none
  | .enum variants, bs =>
    match bs with
    | tag :: rest =>
      match variants.get? tag with
      | some variant =>
        match decodeListF rec (variantFieldTypes variant) rest with
        | some (vs, rest') => some (.vEnum tag vs, rest')
        | none => none
      | none => none
    | [] => none

/-- One decoding step against a named type reference. -/
def decodeNamedF (rec : IdlType → List Nat → Option (Value × List Nat))
    (env : TypeEnv) (name : String) (bs : List Nat) :
    Option (Value × List Nat) :=
  match lookupTypeDef env name with
  | some td => decodeBodyF rec td.ty bs
  | none => none

/-- One decoding step against a `Simple` type name. -/
def decodeScalarF (rec : IdlType → List Nat → Option (Value × List Nat))
    (env : TypeEnv) (s : String) (bs : List Nat) :
    Option (Value × List Nat) :=
  match scalarKind s with
  | some .sBool =>
    match bs with
    | 0 :: rest => some (.vBool false, rest)
    | 1 :: rest => some (.vBool true, rest)
    | _ => none
  | some (.sInt k) =>
    match readLE k bs with
    | some (n, rest) => some (.vInt k n, rest)
    | none => none
  | some (.sFloat k) =>
    match readLE k bs with
    | some (n, rest) =>
      if isNanBits k n then none else some (.vInt k n, rest)
    | none => none
  | some .sString =>
    match readLE 4 bs with
    | some (len, rest) =>
      match readBytes len rest with
      | some (strBytes, rest') => some (.vString strBytes, rest')
      | none => none
    | none => none
  | some .sPubkey =>
    match readBytes 32 bs with
    | some (bytes, rest) => some (.vPubkey bytes, rest)
    | none => none
  | some .sBytes =>
    match readLE 4 bs with
    | some (len, rest) =>
      match decodeElemsF rec (.simple "u8") len rest with
      | some (vs, rest') => some (.vVec vs, rest')
      | none => none
    | none => none
  | none => decodeNamedF rec env s bs

/-- One decoding step against an abstract type expression. -/
def decodeF (rec : IdlType → List Nat → Option (Value × List Nat))
    (env : TypeEnv) : IdlType → List Nat → Option (Value × List Nat)
  | .simple s, bs => decodeScalarF rec env s bs
  | .vecOf ty, bs =>
    match readLE 4 bs with
    | some (len, rest) =>
      match decodeElemsF rec ty len rest with
      | some (vs, rest') => some (.vVec vs, rest')
      | none => none
    | none => none
  | .optionOf ty, bs =>
    match bs with
    | 0 :: rest => some (.vOpt none, rest)
    | 1 :: rest =>
      match rec ty rest with
      | some (v, rest') => some (.vOpt (some v), rest')
      | none => none
    | _ => none
  | .arrayOf ty size, bs =>
    match decodeElemsF rec ty size bs with
    | some (vs, rest) => some (.vArray vs, rest)
    | none => none
  | .defined d, bs => decodeNamedF rec env d.name bs

/-- `decode fuel env ty bs`: borsh-decode one value of `ty` off the
front of `bs`, returning the value and the unconsumed suffix. -/
def decode : Nat → TypeEnv → IdlType → List Nat → Option (Value × List Nat)
  | 0, _, _, _ => none
  | fuel + 1, env, ty, bs => decodeF (decode fuel env) env ty bs

/-! ### Round-trip lemmas -/

theorem readLE_leBytes (k : Nat) :
    ∀ (n : Nat) (rest : List Nat),
      readLE k (leBytes k n ++ rest) = some (n % 256 ^ k, rest) := by
  induction k with
  | zero => intro n rest; simp [readLE, leBytes, Nat.mod_one]
  | succ k ih =>
    intro n rest
    have h := ih (n / 256) rest
    simp only [leBytes, List.cons_append, readLE, List.append_eq, h]
    have : n % 256 + 256 * (n / 256 % 256 ^ k) = n % 256 ^ (k + 1) := by
      rw [pow_succ', Nat.mod_mul]
    rw [this]

theorem readBytes_exact (bytes : List Nat) :
    ∀ rest, readBytes bytes.length (bytes ++ rest) = some (bytes, rest) := by
  induction bytes with
  | nil => intro rest; simp [readBytes]
  | cons b bs ih =>
    intro rest
    have h := ih rest
    simp only [List.length_cons, List.cons_append, readBytes, List.append_eq, h]

theorem decodeListF_roundtrip
    (recT : IdlType → Value → Bool)
    (recD : IdlType → List Nat → Option (Value × List Nat))
    (hrec : ∀ ty v rest, recT ty v = true → recD ty (encode v ++ rest) = some (v, rest)) :
    ∀ (ts : List IdlType) (vs : List Value) (rest : List Nat),
      hasTyListF recT ts vs = true →
      decodeListF recD ts (encodeList vs ++ rest) = some (vs, rest) := by
  intro ts
  induction ts with
  | nil =>
    intro vs rest h
    cases vs with
    | nil => simp [encodeList, decodeListF]
    | cons v vs => simp [hasTyListF] at h
  | cons t ts ih =>
    intro vs rest h
    cases vs with
    | nil => simp [hasTyListF] at h
    | cons v vs =>
      rw [hasTyListF, Bool.and_eq_true] at h
      rw [encodeList, List.append_assoc]
      simp only [decodeListF, hrec t v _ h.1, ih vs rest h.2]

theorem decodeElemsF_roundtrip
    (recT : IdlType → Value → Bool)
    (recD : IdlType → List Nat → Option (Value × List Nat))
    (hrec : ∀ ty v rest, recT ty v = true → recD ty (encode v ++ rest) = some (v, rest))
    (ty : IdlType) :
    ∀ (vs : List Value) (rest : List Nat),
      hasTyElemsF recT ty vs = true →
      decodeElemsF recD ty vs.length (encodeList vs ++ rest) = some (vs, rest) := by
  intro vs
  induction vs with
  | nil => intro rest _; simp [encodeList, decodeElemsF]
  | cons v vs ih =>
    intro rest h
    rw [hasTyElemsF, Bool.and_eq_true] at h
    rw [encodeList, List.append_assoc, List.length_cons]
    simp only [decodeElemsF, hrec ty v _ h.1, ih rest h.2]

theorem decodeBodyF_roundtrip
    (recT : IdlType → Value → Bool)
    (recD : IdlType → List Nat → Option (Value × List Nat))
    (hrec : ∀ ty v rest, recT ty v = true → recD ty (encode v ++ rest) = some (v, rest)) :
    ∀ (body : TypeDefType) (v : Value) (rest : List Nat),
      hasTyBodyF recT body v = true →
      decodeBodyF recD body (encode v ++ rest) = some (v, rest) := by
  intro body v rest h
  cases body with
  | struct sf =>
    cases v
    case vStruct fields =>
      simp only [hasTyBodyF] at h
      simp only [encode, decodeBodyF,
        decodeListF_roundtrip recT recD hrec (fieldTypes sf) fields rest h]
    all_goals simp [hasTyBodyF] at h
  | enum variants =>
    cases v
    case vEnum tag payload =>
      simp only [hasTyBodyF, Bool.and_eq_true] at h
      obtain ⟨_hlen, hmatch⟩ := h
      cases hv : variants.get? tag with
      | some variant =>
        rw [hv] at hmatch
        simp only [encode, List.cons_append, decodeBodyF, hv,
          decodeListF_roundtrip recT recD hrec (variantFieldTypes variant) payload rest hmatch]
      | none => rw [hv] at hmatch; simp at hmatch
    all_goals simp [hasTyBodyF] at h

theorem decodeNamedF_roundtrip
    (recT : IdlType → Value → Bool)
    (recD : IdlType → List Nat → Option (Value × List Nat))
    (hrec : ∀ ty v rest, recT ty v = true → recD ty (encode v ++ rest) = some (v, rest))
    (env : TypeEnv) :
    ∀ (name : String) (v : Value) (rest : List Nat),
      hasTyNamedF recT env name v = true →
      decodeNamedF recD env name (encode v ++ rest) = some (v, rest) := by
  intro name v rest h
  simp only [hasTyNamedF] at h
  cases hl : lookupTypeDef env name with
  | some td =>
    rw [hl] at h
    simp only [decodeNamedF, hl, decodeBodyF_roundtrip recT recD hrec td.ty v rest h]
  | none => rw [hl] at h; simp at h

theorem decodeScalarF_roundtrip
    (recT : IdlType → Value → Bool)
    (recD : IdlType → List Nat → Option (Value × List Nat))
    (hrec : ∀ ty v rest, recT ty v = true → recD ty (encode v ++ rest) = some (v, rest))
    (env : TypeEnv) :
    ∀ (s : String) (v : Value) (rest : List Nat),
      hasTyScalarF recT env s v = true →
      decodeScalarF recD env s (encode v ++ rest) = some (v, rest) := by
  intro s v rest h
  cases hk : scalarKind s with
  | none =>
    simp only [hasTyScalarF, hk] at h
    simp only [decodeScalarF, hk]
    exact decodeNamedF_roundtrip recT recD hrec env s v rest h
  | some k =>
    cases k with
    | sBool =>
      cases v
      case vBool b =>
        cases b <;> simp [decodeScalarF, hk, encode]
      all_goals simp [hasTyScalarF, hk] at h
    | sInt k =>
      cases v
      case vInt k' bits =>
        simp only [hasTyScalarF, hk, Bool.and_eq_true, beq_iff_eq,
          decide_eq_true_eq] at h
        obtain ⟨hkk, hb⟩ := h
        subst hkk
        simp only [encode, decodeScalarF, hk, readLE_leBytes, Nat.mod_eq_of_lt hb]
      all_goals simp [hasTyScalarF, hk] at h
    | sFloat k =>
      cases v
      case vInt k' bits =>
        simp only [hasTyScalarF, hk, Bool.and_eq_true, beq_iff_eq,
          decide_eq_true_eq, Bool.not_eq_true'] at h
        obtain ⟨⟨hkk, hb⟩, hnan⟩ := h
        subst hkk
        simp only [encode, decodeScalarF, hk, readLE_leBytes, Nat.mod_eq_of_lt hb, hnan,
          Bool.false_eq_true, if_false]
      all_goals simp [hasTyScalarF, hk] at h
    | sString =>
      cases v
      case vString bytes =>
        simp only [hasTyScalarF, hk, Bool.and_eq_true, decide_eq_true_eq] at h
        obtain ⟨hlen, _hall⟩ := h
        simp only [encode, List.append_assoc, decodeScalarF, hk, readLE_leBytes,
          Nat.mod_eq_of_lt hlen, readBytes_exact]
      all_goals simp [hasTyScalarF, hk] at h
    | sPubkey =>
      cases v
      case vPubkey bytes =>
        simp only [hasTyScalarF, hk, Bool.and_eq_true, beq_iff_eq] at h
        obtain ⟨hlen, _hall⟩ := h
        simp only [encode, decodeScalarF, hk]
        rw [← hlen, readBytes_exact]
      all_goals simp [hasTyScalarF, hk] at h
    | sBytes =>
      cases v
      case vVec elems =>
        simp only [hasTyScalarF, hk, Bool.and_eq_true, decide_eq_true_eq] at h
        obtain ⟨hlen, helems⟩ := h
        simp only [encode, List.append_assoc, decodeScalarF, hk, readLE_leBytes,
          Nat.mod_eq_of_lt hlen,
          decodeElemsF_roundtrip recT recD hrec (.simple "u8") elems rest helems]
      all_goals simp [hasTyScalarF, hk] at h

theorem decodeF_roundtrip
    (recT : IdlType → Value → Bool)
    (recD : IdlType → List Nat → Option (Value × List Nat))
    (hrec : ∀ ty v rest, recT ty v = true → recD ty (encode v ++ rest) = some (v, rest))
    (env : TypeEnv) :
    ∀ (ty : IdlType) (v : Value) (rest : List Nat),
      hasTyF recT env ty v = true →
      decodeF recD env ty (encode v ++ rest) = some (v, rest) := by
  intro ty v rest h
  cases ty with
  | simple s =>
    simp only [hasTyF] at h
    simp only [decodeF]
    exact decodeScalarF_roundtrip recT recD hrec env s v rest h
  | vecOf ty' =>
    cases v
    case vVec elems =>
      simp only [hasTyF, Bool.and_eq_true, decide_eq_true_eq] at h
      obtain ⟨hlen, helems⟩ := h
      simp only [encode, List.append_assoc, decodeF, readLE_leBytes,
        Nat.mod_eq_of_lt hlen,
        decodeElemsF_roundtrip recT recD hrec ty' elems rest helems]
    all_goals simp [hasTyF] at h
  | optionOf ty' =>
    cases v
    case vOpt o =>
      cases o with
      | none => simp [encode, decodeF]
      | some v' =>
        simp only [hasTyF] at h
        simp only [encode, List.cons_append, decodeF, hrec ty' v' rest h]
    all_goals simp [hasTyF] at h
  | arrayOf ty' size =>
    cases v
    case vArray elems =>
      simp only [hasTyF, Bool.and_eq_true, beq_iff_eq] at h
      obtain ⟨hlen, helems⟩ := h
      simp only [encode, decodeF]
      rw [← hlen, decodeElemsF_roundtrip recT recD hrec ty' elems rest helems]
    all_goals simp [hasTyF] at h
  | defined d =>
    simp only [hasTyF] at h
    simp only [decodeF]
    exact decodeNamedF_roundtrip recT recD hrec env d.name v rest h

/-- Borsh round trip at the level of abstract type expressions: a
well-typed value decodes back to itself, leaving the suffix intact. -/
theorem decode_encode (fuel : Nat) (env : TypeEnv) :
    ∀ (ty : IdlType) (v : Value) (rest : List Nat),
      hasTy fuel env ty v = true →
      decode fuel env ty (encode v ++ rest) = some (v, rest) := by
  induction fuel with
  | zero => intro ty v rest h; simp [hasTy] at h
  | succ fuel ih =>
    intro ty v rest h
    rw [hasTy] at h
    rw [decode]
    exact decodeF_roundtrip (hasTy fuel env) (decode fuel env) ih env ty v rest h

/-! ### The generated discriminator-tagged routines -/

/-- Typing of a value against a struct/enum body (the shape of a
generated account type). -/
def hasTyBody (fuel : Nat) (env : TypeEnv) (body : TypeDefType) (v : Value) : Bool :=
  hasTyBodyF (hasTy fuel env) body v

/-- Typing of a field-value list against a field-type list (the shape
of a generated event struct). -/
def hasTyList (fuel : Nat) (env : TypeEnv) (ts : List IdlType) (vs : List Value) : Bool :=
  hasTyListF (hasTy fuel env) ts vs

/-- Borsh decoding of a struct/enum body. -/
def decodeBody (fuel : Nat) (env : TypeEnv) (body : TypeDefType) (bs : List Nat) :
    Option (Value × List Nat) :=
  decodeBodyF (decode fuel env) body bs

/-- Borsh decoding of a field list in declared order. -/
def decodeFields (fuel : Nat) (env : TypeEnv) (ts : List IdlType) (bs : List Nat) :
    Option (List Value × List Nat) :=
  decodeListF (decode fuel env) ts bs

/-- The `use_bytemuck` strategy selection of the code generator
(`src/codegen.rs` lines 60-64): anything other than `"bytemuck"` /
`"bytemuckunsafe"` selects the default (borsh) strategy. -/
def use_bytemuck (serialization : Option String) : Bool :=
  match serialization with
  | some s => s == "bytemuckunsafe" || s == "bytemuck"
  | none => false

/-- The generated `serialize_with_discriminator` (and the event
wrapper's `BorshSerialize`): write the 8-byte tag, then the borsh
payload. -/
def serialize_with_discriminator (disc : List Nat) (v : Value) : List Nat :=
  disc ++ encode v

/-- `borsh::BorshDeserialize::try_from_slice`: decode one value and
require that every byte be consumed. -/
def borsh_try_from_slice (fuel : Nat) (env : TypeEnv) (body : TypeDefType)
    (data : List Nat) : Option Value :=
  match decodeBody fuel env body data with
  | some (v, []) => some v
  | _ => none

/-- The generated `try_from_slice_with_discriminator`
(`src/codegen.rs` lines 105-119 and 546-560): length check, tag
comparison, then full-consumption borsh decoding of the remainder. -/
def try_from_slice_with_discriminator (fuel : Nat) (env : TypeEnv)
    (body : TypeDefType) (disc : List Nat) (data : List Nat) : Option Value :=
  if data.length < 8 then none
  else if data.take 8 ≠ disc then none
  else borsh_try_from_slice fuel env body (data.drop 8)

/-- The generated event wrapper `deserialize` (`src/codegen.rs` lines
1257-1271): read an 8-byte tag, compare it, then decode the event
struct's fields, leaving any trailing bytes unconsumed. -/
def event_wrapper_deserialize (fuel : Nat) (env : TypeEnv)
    (fieldTys : List IdlType) (disc : List Nat) (data : List Nat) :
    Option (Value × List Nat) :=
  match readBytes 8 data with
  | some (maybe_discm, rest) =>
    if maybe_discm ≠ disc then none
    else
      match decodeFields fuel env fieldTys rest with
      | some (vs, rest') => some (.vStruct vs, rest')
      | none => none
  | none => none

/-! ### Claim C2 -/

/-- Claim C2: for every account or event type under the default
(borsh) strategy, the generated discriminator-tagged encode and
decode routines are exact inverses — for any value populating every
declared field, serializing with the (8-byte) discriminator and then
deserializing the produced bytes reproduces the original value.  The
first conjunct covers account types (`try_from_slice_with_discriminator`,
which requires full consumption); the second covers event wrappers
(whose decoder tolerates a suffix and returns it unconsumed). -/
theorem c2_default_strategy_roundtrip :
    (∀ (fuel : Nat) (env : TypeEnv) (td : TypeDef) (disc : List Nat) (v : Value),
      use_bytemuck td.serialization = false →
      disc.length = 8 →
      hasTyBody fuel env td.ty v = true →
      try_from_slice_with_discriminator fuel env td.ty disc
        (serialize_with_discriminator disc v) = some v) ∧
    (∀ (fuel : Nat) (env : TypeEnv) (efs : List EventField) (disc : List Nat)
        (vs : List Value) (extra : List Nat),
      disc.length = 8 →
      hasTyList fuel env (efs.map EventField.ty) vs = true →
      event_wrapper_deserialize fuel env (efs.map EventField.ty) disc
        (serialize_with_discriminator disc (.vStruct vs) ++ extra)
        = some (.vStruct vs, extra)) := by
  constructor
  · intro fuel env td disc v _hbm hdisc hty
    rw [serialize_with_discriminator, try_from_slice_with_discriminator]
    rw [if_neg (by simp [hdisc])]
    rw [if_neg (by rw [← hdisc, List.take_left]; simp)]
    rw [← hdisc, List.drop_left, borsh_try_from_slice]
    have hdec : decodeBody fuel env td.ty (encode v) = some (v, []) := by
      rw [decodeBody, ← List.append_nil (encode v)]
      exact decodeBodyF_roundtrip (hasTy fuel env) (decode fuel env)
        (decode_encode fuel env) td.ty v [] hty
    rw [hdec]
  · intro fuel env efs disc vs extra hdisc hty
    have hdec : decodeFields fuel env (efs.map EventField.ty)
        (encode (.vStruct vs) ++ extra) = some (vs, extra) := by
      rw [decodeFields]
      have : encode (.vStruct vs) = encodeList vs := rfl
      rw [this]
      exact decodeListF_roundtrip (hasTy fuel env) (decode fuel env)
        (decode_encode fuel env) (efs.map EventField.ty) vs extra hty
    rw [serialize_with_discriminator, List.append_assoc, event_wrapper_deserialize,
      ← hdisc, readBytes_exact]
    simp [hdec]

/-- A concrete default-strategy account type: a struct with a `u64`
and a `bool` field. -/
def c2AccountTd : TypeDef :=
  { name := "Counter"
    docs := none
    ty := .struct (.named
      [{ name := "count", ty := .simple "u64", docs := none },
       { name := "flag", ty := .simple "bool", docs := none }])
    serialization := none
    repr := none }

/-- A value populating both fields of `c2AccountTd`. -/
def c2AccountValue : Value := .vStruct [.vInt 8 5, .vBool true]

/-- A concrete 8-byte discriminator. -/
def c2Disc : List Nat := [1, 2, 3, 4, 5, 6, 7, 8]

/-- A concrete event field list with one `u8` field. -/
def c2EventFields : List EventField :=
  [{ name := "amount", ty := .simple "u8", index := false }]

/-- Witness for `c2_default_strategy_roundtrip` on a concrete account
type, event shape, discriminator and values. -/
theorem c2_default_strategy_roundtrip_witness :
    try_from_slice_with_discriminator 1 [] c2AccountTd.ty c2Disc
        (serialize_with_discriminator c2Disc c2AccountValue) = some c2AccountValue ∧
      event_wrapper_deserialize 1 [] (c2EventFields.map EventField.ty) c2Disc
        (serialize_with_discriminator c2Disc (.vStruct [.vInt 1 9]) ++ [7])
        = some (.vStruct [.vInt 1 9], [7]) :=
  ⟨c2_default_strategy_roundtrip.1 1 [] c2AccountTd c2Disc c2AccountValue rfl rfl
      (by decide),
    c2_default_strategy_roundtrip.2 1 [] c2EventFields c2Disc [.vInt 1 9] [7] rfl
      (by decide)⟩

end IdlCodegen
